import Mathlib

/-!
Verification of the Rapid Image Culler application (src/app.py).

This file shallowly embeds the configuration store (`ConfigManager`), the
directory scanner (`RecursiveScanner`) and the session controller
(`RapidCullerApp`) of the source, and proves the behavioural claims about
them.  Filesystem interaction is modelled explicitly: the persisted settings
file is a `FileContent` value, a directory tree is an `Entry` tree, and the
effects of a move are recorded as `FSEffect` values.
-/

/-- JSON-like values as produced by Python's `json.load`: the data model for
settings documents.  Objects are association lists with the keys of the
parsed dict (unique after parsing, since duplicate keys collapse). -/
inductive JValue where
  | null
  | bool (b : Bool)
  | num (n : Int)
  | str (s : String)
  | arr (elems : List JValue)
  | obj (fields : List (String × JValue))

/-- Association-list lookup, modelling Python dict access `d[k]` / `k in d`. -/
def lookupList : List (String × JValue) → String → Option JValue
  | [], _ => none
  | (k, v) :: rest, key => if k = key then some v else lookupList rest key

/-- Models Python `key in d` for an object's field list. -/
def hasKeyL (kvs : List (String × JValue)) (key : String) : Bool :=
  (lookupList kvs key).isSome

/-- Field lookup on a JSON value (only objects have fields). -/
def JValue.lookup : JValue → String → Option JValue
  | .obj kvs, key => lookupList kvs key
  | _, _ => none

/-- Models Python `key in config` on a JSON value. -/
def JValue.hasKey (j : JValue) (key : String) : Bool := (j.lookup key).isSome

/-- Models Python `d.get(key, default)`. -/
def JValue.getD (j : JValue) (key : String) (d : JValue) : JValue :=
  (j.lookup key).getD d

/-- Models Python dict assignment `d[key] = v` (keys keep their insertion
position; a fresh key is appended). -/
def setKeyL : List (String × JValue) → String → JValue → List (String × JValue)
  | [], key, v => [(key, v)]
  | (k, w) :: rest, key, v =>
      if k = key then (k, v) :: rest else (k, w) :: setKeyL rest key v

/-- Assignment `config[key] = v` on a JSON value. -/
def JValue.setKey : JValue → String → JValue → JValue
  | .obj kvs, key, v => .obj (setKeyL kvs key v)
  | j, _, _ => j

/-- Models Python `str(value)` as interpolated into the validation error
f-strings.  Exact for the scalar JSON values; container values (which never
occur in well-formed configs) are abbreviated. -/
def pyStr : JValue → String
  | .null => "None"
  | .bool true => "True"
  | .bool false => "False"
  | .num n => toString n
  | .str s => s
  | .arr _ => "<list>"
  | .obj _ => "<dict>"

namespace ConfigManager

/-- `ConfigManager.VALID_ACTIONS` from the source: a Python **set**, so a
membership test hashes its operand. -/
def VALID_ACTIONS : List String :=
  ["keep", "reject", "next", "previous", "skip", "disabled"]

/-- `ConfigManager.DEFAULT_CONFIG` from the source. -/
def DEFAULT_CONFIG : JValue :=
  .obj [("src", .str ""), ("keep", .str ""),
        ("button_mappings",
          .obj [("left_click", .str "keep"), ("right_click", .str "reject")]),
        ("wheel_mappings",
          .obj [("wheel_up", .str "previous"), ("wheel_down", .str "next")]),
        ("options", .obj [("recursive_loading", .bool false)])]

/-- The `required_keys` list of `ConfigManager.validate`. -/
def required_keys : List String :=
  ["src", "keep", "button_mappings", "wheel_mappings", "options"]

/-- The `for key in required_keys: if key not in config` loop of `validate`:
first required key missing from the document, if any. -/
def firstMissing (kvs : List (String × JValue)) : List String → Option String
  | [] => none
  | k :: rest => if hasKeyL kvs k then firstMissing kvs rest else some k

/-- One iteration of the button/wheel mapping loops of `validate`: checks
that `key` is present in the mapping dict and then runs
`action not in self.VALID_ACTIONS`.  Because `VALID_ACTIONS` is a set, that
test hashes `action`: a list- or dict-valued entry is unhashable and raises
`TypeError` (modelled as `.error`); scalar values compare cleanly, a
non-member producing the error message. -/
def checkMapEntry (m : List (String × JValue)) (kind key : String) :
    Except String (Option String) :=
  match lookupList m key with
  | none => .ok (some ("Missing " ++ kind ++ " mapping: " ++ key))
  | some (.str s) =>
      if VALID_ACTIONS.contains s then .ok none
      else .ok (some ("Invalid action \x27" ++ s ++ "\x27 for " ++ key))
  | some (.arr _) => .error "TypeError: unhashable type: list"
  | some (.obj _) => .error "TypeError: unhashable type: dict"
  | some v => .ok (some ("Invalid action \x27" ++ pyStr v ++ "\x27 for " ++ key))

/-- `ConfigManager.validate` from the source: returns
`(is_valid, error_message)` as `.ok`, or raises (`.error`, a `TypeError`)
when the checks reach a recognized mapping entry holding an unhashable
list/dict value.  The `none` fall-through branches after `firstMissing` has
returned `none` are unreachable and carry the message the missing-key loop
would have produced. -/
def validate (config : JValue) : Except String (Bool × String) :=
  match config with
  | .obj kvs =>
    if hasKeyL kvs "src" && hasKeyL kvs "keep" && !hasKeyL kvs "button_mappings" then
      .ok (true, "")
    else
      match firstMissing kvs required_keys with
      | some k => .ok (false, "Missing required key: " ++ k)
      | none =>
        match lookupList kvs "button_mappings" with
        | some (.obj bm) =>
          match checkMapEntry bm "button" "left_click" with
          | .error err => .error err
          | .ok (some e) => .ok (false, e)
          | .ok none =>
            match checkMapEntry bm "button" "right_click" with
            | .error err => .error err
            | .ok (some e) => .ok (false, e)
            | .ok none =>
              match lookupList kvs "wheel_mappings" with
              | some (.obj wm) =>
                match checkMapEntry wm "wheel" "wheel_up" with
                | .error err => .error err
                | .ok (some e) => .ok (false, e)
                | .ok none =>
                  match checkMapEntry wm "wheel" "wheel_down" with
                  | .error err => .error err
                  | .ok (some e) => .ok (false, e)
                  | .ok none =>
                    match lookupList kvs "options" with
                    | some (.obj opts) =>
                      match lookupList opts "recursive_loading" with
                      | none => .ok (false, "Missing option: recursive_loading")
                      | some (.bool _) => .ok (true, "")
                      | some _ => .ok (false, "recursive_loading must be a boolean")
                    | some _ => .ok (false, "options must be a dictionary")
                    | none => .ok (false, "Missing required key: options")
              | some _ => .ok (false, "wheel_mappings must be a dictionary")
              | none => .ok (false, "Missing required key: wheel_mappings")
        | some _ => .ok (false, "button_mappings must be a dictionary")
        | none => .ok (false, "Missing required key: button_mappings")
  | _ => .ok (false, "Config must be a dictionary")

/-- State of the persisted settings file, as `load`/`save` can observe it:
absent, existing but unreadable (`open` raises `PermissionError`), existing
but not parseable as JSON (`json.load` raises `JSONDecodeError`), or parsed
JSON content. -/
inductive FileContent where
  | absent
  | unreadable
  | malformed
  | json (v : JValue)

/-- `ConfigManager.save`: re-validates and, when valid, writes the document;
returns the success flag and the resulting file state.  A raise from
`validate` propagates (save's `try` only guards the file write); disk-write
failures (caught and reported in the source) are not modelled, as no claim
concerns them. -/
def save (fc : FileContent) (config : JValue) :
    Except String (Bool × FileContent) :=
  match validate config with
  | .error err => .error err
  | .ok (true, _) => .ok (true, FileContent.json config)
  | .ok (false, _) => .ok (false, fc)

/-- `ConfigManager.migrate`: already-v2 documents pass through; v1 documents
are rebuilt from `DEFAULT_CONFIG` with `src`/`keep` copied over, and the
migrated document is saved.  Returns the document together with the file
state after the embedded `save`; a raise from `save` propagates. -/
def migrate (fc : FileContent) (old_config : JValue) :
    Except String (JValue × FileContent) :=
  if old_config.hasKey "button_mappings" then .ok (old_config, fc)
  else
    let new_config :=
      (DEFAULT_CONFIG.setKey "src" (old_config.getD "src" (.str ""))).setKey
        "keep" (old_config.getD "keep" (.str ""))
    match save fc new_config with
    | .error err => .error err
    | .ok (_, fc2) => .ok (new_config, fc2)

/-- Result of a non-raising `ConfigManager.load`: the returned document, the
file state afterwards, and whether a recoverable settings error was reported
(console message plus warning dialog). -/
structure LoadOk where
  config : JValue
  file : FileContent
  warned : Bool

/-- `ConfigManager.load`: absent file yields the defaults; a parse failure
or a schema-invalid document (the raised `ValueError`) is caught, reported,
and replaced by the defaults; a valid document is migrated (persisting the
migrated form).  Two exceptions escape the caught
`(FileNotFoundError, json.JSONDecodeError, ValueError)` tuple and propagate
to the caller, modelled as `.error`: `PermissionError` from `open` on an
existing but unreadable file, and `TypeError` raised inside `validate` (or
the re-validation in `save`) by an unhashable mapping value. -/
def load : FileContent → Except String LoadOk
  | .absent => .ok ⟨DEFAULT_CONFIG, .absent, false⟩
  | .unreadable => .error "PermissionError"
  | .malformed => .ok ⟨DEFAULT_CONFIG, .malformed, true⟩
  | .json v =>
      match validate v with
      | .error err => .error err
      | .ok (true, _) =>
          match migrate (.json v) v with
          | .error err => .error err
          | .ok (c, fc2) => .ok ⟨c, fc2, false⟩
      | .ok (false, _) => .ok ⟨DEFAULT_CONFIG, .json v, true⟩

end ConfigManager

namespace ConfigManager

/-- The document that v1→v2 migration is expected to produce for a v1 file
with values `S` and `K`: the defaults with `src` and `keep` replaced. -/
def migratedDoc (S K : JValue) : JValue :=
  .obj [("src", S), ("keep", K),
        ("button_mappings",
          .obj [("left_click", .str "keep"), ("right_click", .str "reject")]),
        ("wheel_mappings",
          .obj [("wheel_up", .str "previous"), ("wheel_down", .str "next")]),
        ("options", .obj [("recursive_loading", .bool false)])]

end ConfigManager

namespace ConfigManager

/-- C1: for a v1 settings document (`src` and `keep` present, no
`button_mappings`), `load` returns the migrated v2 document with the
original `src`/`keep` values and default mappings/options, persists exactly
that document to the settings file during the load, reports no error, and
the migrated document validates (as a v2 document, since it now carries
`button_mappings`). -/
theorem load_migrates_v1 (kvs : List (String × JValue)) (S K : JValue)
    (hs : lookupList kvs "src" = some S) (hk : lookupList kvs "keep" = some K)
    (hb : lookupList kvs "button_mappings" = none) :
    load (.json (.obj kvs)) =
      .ok ⟨migratedDoc S K, .json (migratedDoc S K), false⟩ ∧
    (migratedDoc S K).lookup "src" = some S ∧
    (migratedDoc S K).lookup "keep" = some K ∧
    (migratedDoc S K).lookup "button_mappings" = DEFAULT_CONFIG.lookup "button_mappings" ∧
    (migratedDoc S K).lookup "wheel_mappings" = DEFAULT_CONFIG.lookup "wheel_mappings" ∧
    (migratedDoc S K).lookup "options" = DEFAULT_CONFIG.lookup "options" ∧
    validate (migratedDoc S K) = .ok (true, "") ∧
    (migratedDoc S K).hasKey "button_mappings" = true := by
  have h1 : hasKeyL kvs "src" = true := by simp [hasKeyL, hs]
  have h2 : hasKeyL kvs "keep" = true := by simp [hasKeyL, hk]
  have h3 : hasKeyL kvs "button_mappings" = false := by simp [hasKeyL, hb]
  have hval : validate (.obj kvs) = .ok (true, "") := by
    simp [validate, h1, h2, h3]
  have hvm : validate (migratedDoc S K) = .ok (true, "") := rfl
  have hset : (DEFAULT_CONFIG.setKey "src" ((JValue.obj kvs).getD "src" (.str ""))).setKey
      "keep" ((JValue.obj kvs).getD "keep" (.str "")) = migratedDoc S K := by
    simp [DEFAULT_CONFIG, JValue.setKey, setKeyL, JValue.getD, JValue.lookup,
      hs, hk, migratedDoc]
  have hmig : migrate (.json (.obj kvs)) (.obj kvs) =
      .ok (migratedDoc S K, .json (migratedDoc S K)) := by
    rw [migrate]
    simp only [JValue.hasKey, JValue.lookup, hb, Option.isSome_none,
      Bool.false_eq_true, if_false, hset, save, hvm]
  refine ⟨?_, rfl, rfl, rfl, rfl, rfl, rfl, rfl⟩
  simp [load, hval, hmig]

/-- C1 witness: a concrete v1 document `src="/a"`, `keep="/b"`. -/
theorem load_migrates_v1_witness :
    load (.json (.obj [("src", .str "/a"), ("keep", .str "/b")])) =
      .ok ⟨migratedDoc (.str "/a") (.str "/b"),
           .json (migratedDoc (.str "/a") (.str "/b")), false⟩ :=
  (load_migrates_v1 [("src", .str "/a"), ("keep", .str "/b")]
    (.str "/a") (.str "/b") rfl rfl rfl).1

end ConfigManager

namespace ConfigManager

/-- C3 counterexample: a settings file that exists but cannot be read makes
`load` raise to its caller.  `open` raises `PermissionError`, which is not
in the caught tuple `(FileNotFoundError, json.JSONDecodeError, ValueError)`,
so the claim that `load` never raises for every persisted file state is
false. -/
theorem load_raises_on_unreadable_file :
    load FileContent.unreadable = .error "PermissionError" := rfl

/-- A readable, parseable, schema-invalid document on which `validate`
itself raises: `left_click` holds a list, which the set-membership test
cannot hash. -/
def unhashableActionDoc : JValue :=
  .obj [("src", .str ""), ("keep", .str ""),
        ("button_mappings",
          .obj [("left_click", .arr []), ("right_click", .str "reject")]),
        ("wheel_mappings",
          .obj [("wheel_up", .str "previous"), ("wheel_down", .str "next")]),
        ("options", .obj [("recursive_loading", .bool false)])]

/-- C3 amended: `load` never raises when the settings file is absent,
unparseable, or parses to a document on which `validate` completes with a
failure: those are reported as recoverable errors and replaced by the
defaults.  It does raise in exactly the modelled exception cases, both
outside the caught `(FileNotFoundError, JSONDecodeError, ValueError)`
tuple: `PermissionError` for an existing but unreadable file, and any
`TypeError` escaping `validate` — e.g. a list under the recognized
`left_click` key. -/
theorem load_recovers_unless_python_raises :
    load .absent = .ok ⟨DEFAULT_CONFIG, .absent, false⟩ ∧
    load .malformed = .ok ⟨DEFAULT_CONFIG, .malformed, true⟩ ∧
    (∀ (v : JValue) (msg : String), validate v = .ok (false, msg) →
      load (.json v) = .ok ⟨DEFAULT_CONFIG, .json v, true⟩) ∧
    (∀ (v : JValue) (err : String), validate v = .error err →
      load (.json v) = .error err) ∧
    load (.json unhashableActionDoc) =
      .error "TypeError: unhashable type: list" := by
  refine ⟨rfl, rfl, ?_, ?_, rfl⟩
  · intro v msg hv
    simp [load, hv]
  · intro v err hv
    simp [load, hv]

/-- C3 amended witness: a parsed but schema-invalid scalar document (a bare
number) is replaced by the defaults with a reported warning. -/
theorem load_recovers_unless_python_raises_witness :
    load (.json (.num 0)) = .ok ⟨DEFAULT_CONFIG, .json (.num 0), true⟩ :=
  load_recovers_unless_python_raises.2.2.1 (.num 0)
    "Config must be a dictionary" rfl

end ConfigManager

namespace ConfigManager

/-- C6 counterexample document: a v2 document whose `button_mappings` dict
carries an extra entry `middle_click` mapped to a value outside the action
set. -/
def c6doc : JValue :=
  .obj [("src", .str ""), ("keep", .str ""),
        ("button_mappings",
          .obj [("left_click", .str "keep"), ("right_click", .str "reject"),
                ("middle_click", .str "explode")]),
        ("wheel_mappings",
          .obj [("wheel_up", .str "previous"), ("wheel_down", .str "next")]),
        ("options", .obj [("recursive_loading", .bool false)])]

/-- C6 counterexample: `validate` only inspects the four recognized mapping
keys, so a v2 document containing a button-mapping value outside the
six-name action set (under the unrecognized key `middle_click`) still
validates successfully, contradicting the claim that any out-of-set mapping
value is rejected. -/
theorem validate_accepts_unknown_mapping_key_out_of_set :
    validate c6doc = .ok (true, "") ∧
    (c6doc.lookup "button_mappings").bind (fun bm => bm.lookup "middle_click") =
      some (.str "explode") ∧
    VALID_ACTIONS.contains "explode" = false :=
  ⟨rfl, rfl, rfl⟩

/-- Validity of one mapping entry as `validate` checks it: present and a
string belonging to `VALID_ACTIONS`. -/
def actionOk : Option JValue → Prop
  | some (.str s) => VALID_ACTIONS.contains s = true
  | _ => False

/-- The structural constraints `validate` actually enforces on a v2
document: all five top-level keys, dictionary-valued `button_mappings` and
`wheel_mappings` whose four recognized entries are valid actions, and a
dictionary `options` with a boolean `recursive_loading`. -/
def V2Doc (kvs : List (String × JValue)) : Prop :=
  hasKeyL kvs "src" = true ∧ hasKeyL kvs "keep" = true ∧
  (∃ bm, lookupList kvs "button_mappings" = some (.obj bm) ∧
    actionOk (lookupList bm "left_click") ∧ actionOk (lookupList bm "right_click")) ∧
  (∃ wm, lookupList kvs "wheel_mappings" = some (.obj wm) ∧
    actionOk (lookupList wm "wheel_up") ∧ actionOk (lookupList wm "wheel_down")) ∧
  (∃ opts b, lookupList kvs "options" = some (.obj opts) ∧
    lookupList opts "recursive_loading" = some (.bool b))

theorem checkMapEntry_eq_ok_none_iff (m : List (String × JValue)) (kind key : String) :
    checkMapEntry m kind key = .ok none ↔ actionOk (lookupList m key) := by
  unfold checkMapEntry
  rcases h : lookupList m key with _ | v
  · simp [actionOk]
  · cases v
    case str s =>
      simp only [actionOk]
      split <;> simp_all
    all_goals simp [actionOk]

theorem firstMissing_eq_none_iff (kvs : List (String × JValue)) (keys : List String) :
    firstMissing kvs keys = none ↔ ∀ k ∈ keys, hasKeyL kvs k = true := by
  induction keys with
  | nil => simp [firstMissing]
  | cons k rest ih => by_cases h : hasKeyL kvs k <;> simp [firstMissing, h, ih]

theorem append_ne_empty_left {a : String} (b : String) (h : a ≠ "") :
    a ++ b ≠ "" := by
  intro hc
  apply h
  have hd := congrArg String.data hc
  simp only [String.data_append] at hd
  rcases List.append_eq_nil.mp hd with ⟨ha, _⟩
  cases a
  simp_all

theorem checkMapEntry_ok_some_ne_empty {m : List (String × JValue)}
    {kind key e : String} (h : checkMapEntry m kind key = .ok (some e)) :
    e ≠ "" := by
  unfold checkMapEntry at h
  rcases hl : lookupList m key with _ | v <;> rw [hl] at h
  · cases h
    exact append_ne_empty_left _
      (append_ne_empty_left _ (append_ne_empty_left _ (by decide)))
  · cases v
    case str s =>
      have h2 : (if VALID_ACTIONS.contains s then (Except.ok none : Except String (Option String))
          else .ok (some ("Invalid action \x27" ++ s ++ "\x27 for " ++ key))) =
          .ok (some e) := h
      by_cases hc : VALID_ACTIONS.contains s
      · rw [if_pos hc] at h2
        simp at h2
      · rw [if_neg hc] at h2
        cases h2
        exact append_ne_empty_left _
          (append_ne_empty_left _ (append_ne_empty_left _ (by decide)))
    case arr es => simp at h
    case obj fs => simp at h
    all_goals
      cases h
      exact append_ne_empty_left _
        (append_ne_empty_left _ (append_ne_empty_left _ (by decide)))

end ConfigManager

namespace ConfigManager

theorem firstMissing_eq_some {kvs : List (String × JValue)} {keys : List String}
    {k : String} (h : firstMissing kvs keys = some k) :
    k ∈ keys ∧ hasKeyL kvs k = false := by
  induction keys with
  | nil => simp [firstMissing] at h
  | cons k2 rest ih =>
      by_cases hk : hasKeyL kvs k2
      · rw [firstMissing, if_pos hk] at h
        obtain ⟨hmem, hmiss⟩ := ih h
        exact ⟨List.mem_cons_of_mem _ hmem, hmiss⟩
      · rw [firstMissing, if_neg hk] at h
        cases h
        exact ⟨List.mem_cons_self _ _, by simp_all⟩

theorem V2Doc_hasKeys {kvs : List (String × JValue)} (h : V2Doc kvs) :
    ∀ k ∈ required_keys, hasKeyL kvs k = true := by
  obtain ⟨h1, h2, ⟨bm, hb, -, -⟩, ⟨wm, hw, -, -⟩, ⟨opts, b, ho, -⟩⟩ := h
  intro k hk
  simp only [required_keys, List.mem_cons, List.not_mem_nil, or_false] at hk
  rcases hk with rfl | rfl | rfl | rfl | rfl
  exacts [h1, h2, by simp [hasKeyL, hb], by simp [hasKeyL, hw], by simp [hasKeyL, ho]]

theorem validate_of_V2Doc (kvs : List (String × JValue)) (h : V2Doc kvs) :
    validate (.obj kvs) = .ok (true, "") := by
  obtain ⟨h1, h2, ⟨bm, hb, hl, hr⟩, ⟨wm, hw, hu, hd⟩, ⟨opts, b, ho, hrl⟩⟩ := h
  have hv1 : (hasKeyL kvs "src" && hasKeyL kvs "keep" &&
      !hasKeyL kvs "button_mappings") = false := by
    simp [hasKeyL, hb]
  have hfm : firstMissing kvs required_keys = none :=
    (firstMissing_eq_none_iff _ _).mpr (V2Doc_hasKeys
      ⟨h1, h2, ⟨bm, hb, hl, hr⟩, ⟨wm, hw, hu, hd⟩, ⟨opts, b, ho, hrl⟩⟩)
  have hcl := (checkMapEntry_eq_ok_none_iff bm "button" "left_click").mpr hl
  have hcr := (checkMapEntry_eq_ok_none_iff bm "button" "right_click").mpr hr
  have hwu := (checkMapEntry_eq_ok_none_iff wm "wheel" "wheel_up").mpr hu
  have hwd := (checkMapEntry_eq_ok_none_iff wm "wheel" "wheel_down").mpr hd
  simp only [validate, hv1, Bool.false_eq_true, if_false, hfm, hb, hcl, hcr,
    hw, hwu, hwd, ho, hrl]

theorem V2Doc_of_validate (kvs : List (String × JValue))
    (hbm : hasKeyL kvs "button_mappings" = true)
    (h : validate (.obj kvs) = .ok (true, "")) : V2Doc kvs := by
  have hv1 : (hasKeyL kvs "src" && hasKeyL kvs "keep" &&
      !hasKeyL kvs "button_mappings") = false := by
    simp [hbm]
  rcases hfm : firstMissing kvs required_keys with _ | k
  case some =>
    simp only [validate, hv1, Bool.false_eq_true, if_false, hfm] at h
    simp at h
  case none =>
  have hall := (firstMissing_eq_none_iff _ _).mp hfm
  obtain ⟨bv, hbv⟩ := Option.isSome_iff_exists.mp (by rw [hasKeyL] at hbm; exact hbm)
  cases bv
  case obj bm =>
    rcases hcl : checkMapEntry bm "button" "left_click" with err | onc
    case error =>
      simp only [validate, hv1, Bool.false_eq_true, if_false, hfm, hbv, hcl] at h
      simp at h
    case ok =>
    rcases onc with _ | e
    case some =>
      simp only [validate, hv1, Bool.false_eq_true, if_false, hfm, hbv, hcl] at h
      simp at h
    case none =>
    rcases hcr : checkMapEntry bm "button" "right_click" with err | onc
    case error =>
      simp only [validate, hv1, Bool.false_eq_true, if_false, hfm, hbv, hcl, hcr] at h
      simp at h
    case ok =>
    rcases onc with _ | e
    case some =>
      simp only [validate, hv1, Bool.false_eq_true, if_false, hfm, hbv, hcl, hcr] at h
      simp at h
    case none =>
    have hwmk : (lookupList kvs "wheel_mappings").isSome = true := by
      have := hall "wheel_mappings" (by simp [required_keys])
      rwa [hasKeyL] at this
    obtain ⟨wv, hwv⟩ := Option.isSome_iff_exists.mp hwmk
    cases wv
    case obj wm =>
      rcases hwu : checkMapEntry wm "wheel" "wheel_up" with err | onc
      case error =>
        simp only [validate, hv1, Bool.false_eq_true, if_false, hfm, hbv, hcl,
          hcr, hwv, hwu] at h
        simp at h
      case ok =>
      rcases onc with _ | e
      case some =>
        simp only [validate, hv1, Bool.false_eq_true, if_false, hfm, hbv, hcl,
          hcr, hwv, hwu] at h
        simp at h
      case none =>
      rcases hwd : checkMapEntry wm "wheel" "wheel_down" with err | onc
      case error =>
        simp only [validate, hv1, Bool.false_eq_true, if_false, hfm, hbv, hcl,
          hcr, hwv, hwu, hwd] at h
        simp at h
      case ok =>
      rcases onc with _ | e
      case some =>
        simp only [validate, hv1, Bool.false_eq_true, if_false, hfm, hbv, hcl,
          hcr, hwv, hwu, hwd] at h
        simp at h
      case none =>
      have hopk : (lookupList kvs "options").isSome = true := by
        have := hall "options" (by simp [required_keys])
        rwa [hasKeyL] at this
      obtain ⟨ov, hov⟩ := Option.isSome_iff_exists.mp hopk
      cases ov
      case obj opts =>
        rcases hrl : lookupList opts "recursive_loading" with _ | rv
        case none =>
          simp only [validate, hv1, Bool.false_eq_true, if_false, hfm, hbv, hcl,
            hcr, hwv, hwu, hwd, hov, hrl] at h
          simp at h
        case some =>
        cases rv
        case bool b =>
          exact ⟨hall _ (by simp [required_keys]), hall _ (by simp [required_keys]),
            ⟨bm, hbv, (checkMapEntry_eq_ok_none_iff bm "button" "left_click").mp hcl,
              (checkMapEntry_eq_ok_none_iff bm "button" "right_click").mp hcr⟩,
            ⟨wm, hwv, (checkMapEntry_eq_ok_none_iff wm "wheel" "wheel_up").mp hwu,
              (checkMapEntry_eq_ok_none_iff wm "wheel" "wheel_down").mp hwd⟩,
            ⟨opts, b, hov, hrl⟩⟩
        all_goals
          simp only [validate, hv1, Bool.false_eq_true, if_false, hfm, hbv, hcl,
            hcr, hwv, hwu, hwd, hov, hrl] at h
          simp at h
      all_goals
        simp only [validate, hv1, Bool.false_eq_true, if_false, hfm, hbv, hcl,
          hcr, hwv, hwu, hwd, hov] at h
        simp at h
    all_goals
      simp only [validate, hv1, Bool.false_eq_true, if_false, hfm, hbv, hcl,
        hcr, hwv] at h
      simp at h
  all_goals
    simp only [validate, hv1, Bool.false_eq_true, if_false, hfm, hbv] at h
    simp at h

end ConfigManager

namespace ConfigManager

/-- C6 amended: for a document in v2 shape (a dictionary carrying
`button_mappings`), `validate` succeeds exactly when the five top-level keys
are present, `button_mappings`/`wheel_mappings` are dictionaries whose four
recognized entries (`left_click`, `right_click`, `wheel_up`, `wheel_down`)
are strings in the six-name action set, and `options` is a dictionary whose
`recursive_loading` is a boolean; values under unrecognized mapping keys are
not checked.  When `validate` returns a failure, the reason string is
nonempty and condition-specific; but a list/dict value under a recognized
mapping key reached by the checks makes `validate` raise `TypeError`
instead of returning. -/
theorem validate_v2_characterization (kvs : List (String × JValue))
    (hbm : hasKeyL kvs "button_mappings" = true) :
    (validate (.obj kvs) = .ok (true, "") ↔ V2Doc kvs) ∧
    (∀ msg, validate (.obj kvs) = .ok (false, msg) → msg ≠ "") ∧
    validate unhashableActionDoc = .error "TypeError: unhashable type: list" := by
  refine ⟨⟨V2Doc_of_validate kvs hbm, validate_of_V2Doc kvs⟩, ?_, rfl⟩
  intro msg hmsg
  have hv1 : (hasKeyL kvs "src" && hasKeyL kvs "keep" &&
      !hasKeyL kvs "button_mappings") = false := by
    simp [hbm]
  rcases hfm : firstMissing kvs required_keys with _ | k
  case some =>
    simp only [validate, hv1, Bool.false_eq_true, if_false, hfm] at hmsg
    simp at hmsg
    subst hmsg
    apply append_ne_empty_left
    decide
  case none =>
  obtain ⟨bv, hbv⟩ := Option.isSome_iff_exists.mp (by rw [hasKeyL] at hbm; exact hbm)
  cases bv
  case obj bm =>
    rcases hcl : checkMapEntry bm "button" "left_click" with err | onc
    case error =>
      simp only [validate, hv1, Bool.false_eq_true, if_false, hfm, hbv, hcl] at hmsg
      simp at hmsg
    case ok =>
    rcases onc with _ | e
    case some =>
      simp only [validate, hv1, Bool.false_eq_true, if_false, hfm, hbv, hcl] at hmsg
      simp at hmsg
      subst hmsg
      exact checkMapEntry_ok_some_ne_empty hcl
    case none =>
    rcases hcr : checkMapEntry bm "button" "right_click" with err | onc
    case error =>
      simp only [validate, hv1, Bool.false_eq_true, if_false, hfm, hbv, hcl, hcr] at hmsg
      simp at hmsg
    case ok =>
    rcases onc with _ | e
    case some =>
      simp only [validate, hv1, Bool.false_eq_true, if_false, hfm, hbv, hcl, hcr] at hmsg
      simp at hmsg
      subst hmsg
      exact checkMapEntry_ok_some_ne_empty hcr
    case none =>
    rcases hwv : lookupList kvs "wheel_mappings" with _ | wv
    case none =>
      simp only [validate, hv1, Bool.false_eq_true, if_false, hfm, hbv, hcl, hcr,
        hwv] at hmsg
      simp at hmsg
      subst hmsg
      decide
    case some =>
    cases wv
    case obj wm =>
      rcases hwu : checkMapEntry wm "wheel" "wheel_up" with err | onc
      case error =>
        simp only [validate, hv1, Bool.false_eq_true, if_false, hfm, hbv, hcl,
          hcr, hwv, hwu] at hmsg
        simp at hmsg
      case ok =>
      rcases onc with _ | e
      case some =>
        simp only [validate, hv1, Bool.false_eq_true, if_false, hfm, hbv, hcl,
          hcr, hwv, hwu] at hmsg
        simp at hmsg
        subst hmsg
        exact checkMapEntry_ok_some_ne_empty hwu
      case none =>
      rcases hwd : checkMapEntry wm "wheel" "wheel_down" with err | onc
      case error =>
        simp only [validate, hv1, Bool.false_eq_true, if_false, hfm, hbv, hcl,
          hcr, hwv, hwu, hwd] at hmsg
        simp at hmsg
      case ok =>
      rcases onc with _ | e
      case some =>
        simp only [validate, hv1, Bool.false_eq_true, if_false, hfm, hbv, hcl,
          hcr, hwv, hwu, hwd] at hmsg
        simp at hmsg
        subst hmsg
        exact checkMapEntry_ok_some_ne_empty hwd
      case none =>
      rcases hov : lookupList kvs "options" with _ | ov
      case none =>
        simp only [validate, hv1, Bool.false_eq_true, if_false, hfm, hbv, hcl,
          hcr, hwv, hwu, hwd, hov] at hmsg
        simp at hmsg
        subst hmsg
        decide
      case some =>
      cases ov
      case obj opts =>
        rcases hrl : lookupList opts "recursive_loading" with _ | rv
        case none =>
          simp only [validate, hv1, Bool.false_eq_true, if_false, hfm, hbv, hcl,
            hcr, hwv, hwu, hwd, hov, hrl] at hmsg
          simp at hmsg
          subst hmsg
          decide
        case some =>
        cases rv
        case bool b =>
          simp only [validate, hv1, Bool.false_eq_true, if_false, hfm, hbv, hcl,
            hcr, hwv, hwu, hwd, hov, hrl] at hmsg
          simp at hmsg
        all_goals
          simp only [validate, hv1, Bool.false_eq_true, if_false, hfm, hbv, hcl,
            hcr, hwv, hwu, hwd, hov, hrl] at hmsg
          simp at hmsg
          subst hmsg
          decide
      all_goals
        simp only [validate, hv1, Bool.false_eq_true, if_false, hfm, hbv, hcl,
          hcr, hwv, hwu, hwd, hov] at hmsg
        simp at hmsg
        subst hmsg
        decide
    all_goals
      simp only [validate, hv1, Bool.false_eq_true, if_false, hfm, hbv, hcl,
        hcr, hwv] at hmsg
      simp at hmsg
      subst hmsg
      decide
  all_goals
    simp only [validate, hv1, Bool.false_eq_true, if_false, hfm, hbv] at hmsg
    simp at hmsg
    subst hmsg
    decide

/-- C6 amended witness: the default configuration is in v2 shape and
satisfies the characterization, hence validates. -/
theorem validate_v2_characterization_witness :
    V2Doc [("src", JValue.str ""), ("keep", JValue.str ""),
      ("button_mappings",
        JValue.obj [("left_click", JValue.str "keep"), ("right_click", JValue.str "reject")]),
      ("wheel_mappings",
        JValue.obj [("wheel_up", JValue.str "previous"), ("wheel_down", JValue.str "next")]),
      ("options", JValue.obj [("recursive_loading", JValue.bool false)])] :=
  ((validate_v2_characterization
    [("src", JValue.str ""), ("keep", JValue.str ""),
      ("button_mappings",
        JValue.obj [("left_click", JValue.str "keep"), ("right_click", JValue.str "reject")]),
      ("wheel_mappings",
        JValue.obj [("wheel_up", JValue.str "previous"), ("wheel_down", JValue.str "next")]),
      ("options", JValue.obj [("recursive_loading", JValue.bool false)])]
    rfl).1).mp rfl

end ConfigManager

/-- Models `os.path.join(a, b)` (posixpath) for the joins the scanner and the
mover perform: an absolute second component replaces the path; otherwise a
separator is inserted unless the first component is empty or already ends
with one. -/
def pjoin (a b : String) : String :=
  if b.data.head? = some '/' then b
  else if a.data = [] || a.data.getLast? = some '/' then a ++ b
  else a ++ "/" ++ b

/-- One scanned image: the dict
`(filename, relative_path, full_path)` built by `RecursiveScanner`. -/
structure ImageRecord where
  filename : String
  relative_path : String
  full_path : String
deriving DecidableEq

/-- A directory entry of the modelled filesystem tree: a regular file, a
subdirectory with its own listing, or a symbolic link to a directory (which
`os.walk` would list in `dirnames` and the scanner's `islink` filter
removes). The order of a listing is the enumeration order the OS returns. -/
inductive Entry where
  | file (name : String)
  | dir (name : String) (children : List Entry)
  | link (name : String)

/-- State of the scan root on the filesystem: missing
(`FileNotFoundError`), unreadable (`PermissionError`), or a readable
directory tree. -/
inductive FS where
  | missing
  | denied
  | tree (entries : List Entry)

namespace RecursiveScanner

/-- `RecursiveScanner.VALID_EXTENSIONS` from the source. -/
def VALID_EXTENSIONS : List String := [".png", ".jpg", ".jpeg", ".bmp", ".webp"]

/-- Models Python `str.lower()` (character-wise lowercasing; exact for the
ASCII extensions being compared). -/
def lowerStr (s : String) : String := ⟨s.data.map Char.toLower⟩

/-- Models Python `str.endswith(suffix)` as a suffix test on the character
lists. -/
def strEndsWith (s suffix : String) : Bool := suffix.data.isSuffixOf s.data

/-- `RecursiveScanner._is_valid_image`: lowercased filename ends with one of
the valid extensions (`str.endswith` on a tuple is a disjunction over its
members). -/
def _is_valid_image (filename : String) : Bool :=
  VALID_EXTENSIONS.any (fun e => strEndsWith (lowerStr filename) e)

/-- Accumulated relative path of a subdirectory: models what
`os.path.relpath(dirpath, root_dir)` returns for the walk (with `"."`
already replaced by `""` as lines 350-351 of the source do). -/
def joinRel (rel n : String) : String := if rel = "" then n else rel ++ "/" ++ n

/-- The `dirpath` os.walk reports for the directory at relative path `rel`
under `root`: `root` itself at the top, otherwise `root` joined with the
relative path.  This models os.walk's progressively joined `dirpath` for a
normalized root and slash-free entry names. -/
def dirpathOf (root rel : String) : String := if rel = "" then root else pjoin root rel

/-- The image records one directory listing contributes (the body of the
`for filename in filenames` loop, and equally the `isfile` branch of
`_scan_flat`): each regular file with a valid image extension, in
enumeration order, with `full_path = os.path.join(dirpath, filename)`. -/
def filesHere (dirpath rel : String) : List Entry → List ImageRecord
  | [] => []
  | Entry.file n :: rest =>
      if _is_valid_image n then
        ⟨n, rel, pjoin dirpath n⟩ :: filesHere dirpath rel rest
      else filesHere dirpath rel rest
  | Entry.dir _ _ :: rest => filesHere dirpath rel rest
  | Entry.link _ :: rest => filesHere dirpath rel rest

/-- The records contributed by the subdirectory walks of one listing:
`os.walk` (top-down) recurses into each non-symlink directory in enumeration
order, emitting that directory's files first and then its own
subdirectories.  Symbolic links are pruned from `dirnames` (source line
341). -/
def walkSubdirs (root : String) : String → List Entry → List ImageRecord
  | _, [] => []
  | rel, Entry.file _ :: rest => walkSubdirs root rel rest
  | rel, Entry.link _ :: rest => walkSubdirs root rel rest
  | rel, Entry.dir n cs :: rest =>
      filesHere (dirpathOf root (joinRel rel n)) (joinRel rel n) cs ++
      walkSubdirs root (joinRel rel n) cs ++
      walkSubdirs root rel rest
  termination_by _ es => sizeOf es
  decreasing_by all_goals (simp_wf; try omega)

/-- `RecursiveScanner._scan_flat`: lists only the root.  A missing or
unreadable root raises inside the `try`, is caught, and one error line is
printed; the function returns the records together with the printed log
lines. -/
def _scan_flat (root_dir : String) (fs : FS) : List ImageRecord × List String :=
  match fs with
  | .missing =>
      ([], ["Error scanning directory " ++ root_dir ++ ": FileNotFoundError"])
  | .denied =>
      ([], ["Error scanning directory " ++ root_dir ++ ": PermissionError"])
  | .tree es => (filesHere root_dir "" es, [])

/-- `RecursiveScanner._scan_recursive`: walks the tree with `os.walk`.
`os.walk` is invoked with the default `onerror=None`, so a missing or
unreadable root yields no triples at all: the function returns an empty list
and prints nothing. -/
def _scan_recursive (root_dir : String) (fs : FS) : List ImageRecord × List String :=
  match fs with
  | .missing => ([], [])
  | .denied => ([], [])
  | .tree es => (filesHere root_dir "" es ++ walkSubdirs root_dir "" es, [])

/-- `RecursiveScanner.scan`: dispatches on the `recursive` flag. -/
def scan (root_dir : String) (fs : FS) (recursive : Bool) :
    List ImageRecord × List String :=
  if recursive then _scan_recursive root_dir fs else _scan_flat root_dir fs

end RecursiveScanner

namespace RecursiveScanner

/-- C7 counterexample: a missing root in recursive mode yields an empty
result but also an empty log — `os.walk` silently swallows the error
(default `onerror=None`), so no error line is ever printed, contradicting
the claim that recursive mode logs an error. -/
theorem scan_recursive_missing_root_logs_nothing :
    scan "root" FS.missing true = ([], []) := rfl

/-- C7 amended: a missing or unreadable root yields an empty record list in
both modes and never propagates the OS error; non-recursive mode logs one
error line, while recursive mode logs nothing. -/
theorem scan_inaccessible_root_empty (root : String) :
    _scan_flat root FS.missing =
      ([], ["Error scanning directory " ++ root ++ ": FileNotFoundError"]) ∧
    _scan_flat root FS.denied =
      ([], ["Error scanning directory " ++ root ++ ": PermissionError"]) ∧
    scan root FS.missing false = _scan_flat root FS.missing ∧
    scan root FS.denied false = _scan_flat root FS.denied ∧
    scan root FS.missing true = ([], []) ∧
    scan root FS.denied true = ([], []) :=
  ⟨rfl, rfl, rfl, rfl, rfl, rfl⟩

/-- Wellformedness of a modelled directory tree: every entry name is
nonempty, as on a real filesystem.  (A name is the `os.listdir` component;
empty components cannot occur.) -/
def namesNonempty : List Entry → Bool
  | [] => true
  | Entry.file n :: rest => !(n == "") && namesNonempty rest
  | Entry.link n :: rest => !(n == "") && namesNonempty rest
  | Entry.dir n cs :: rest => !(n == "") && (namesNonempty cs && namesNonempty rest)
  termination_by es => sizeOf es
  decreasing_by all_goals (simp_wf; try omega)

theorem joinRel_ne_empty {rel n : String} (hn : n ≠ "") : joinRel rel n ≠ "" := by
  unfold joinRel
  split
  · exact hn
  · intro hc
    have hd := congrArg String.data hc
    simp [String.data_append] at hd

theorem filesHere_spec (d rel : String) :
    ∀ es r, r ∈ filesHere d rel es →
      r.relative_path = rel ∧ r.full_path = pjoin d r.filename := by
  intro es
  induction es with
  | nil => simp [filesHere]
  | cons e rest ih =>
      cases e with
      | file n =>
          intro r hr
          by_cases h : _is_valid_image n
          · rw [filesHere, if_pos h] at hr
            rcases List.mem_cons.mp hr with rfl | hr2
            · exact ⟨rfl, rfl⟩
            · exact ih r hr2
          · rw [filesHere, if_neg h] at hr
            exact ih r hr
      | dir n cs =>
          intro r hr
          rw [filesHere] at hr
          exact ih r hr
      | link n =>
          intro r hr
          rw [filesHere] at hr
          exact ih r hr

theorem walkSubdirs_spec (n : Nat) :
    ∀ es, sizeOf es ≤ n → ∀ root rel r, r ∈ walkSubdirs root rel es →
      namesNonempty es = true →
      r.relative_path ≠ "" ∧
      r.full_path = pjoin (dirpathOf root r.relative_path) r.filename := by
  induction n with
  | zero =>
      intro es h
      exact absurd h (by cases es <;> simp)
  | succ n ih =>
      intro es hsz root rel r hr hnm
      match es with
      | [] => simp [walkSubdirs] at hr
      | Entry.file m :: rest =>
          rw [walkSubdirs] at hr
          rw [namesNonempty, Bool.and_eq_true] at hnm
          refine ih rest ?_ root rel r hr hnm.2
          simp only [List.cons.sizeOf_spec] at hsz
          omega
      | Entry.link m :: rest =>
          rw [walkSubdirs] at hr
          rw [namesNonempty, Bool.and_eq_true] at hnm
          refine ih rest ?_ root rel r hr hnm.2
          simp only [List.cons.sizeOf_spec] at hsz
          omega
      | Entry.dir m cs :: rest =>
          rw [walkSubdirs] at hr
          rw [namesNonempty, Bool.and_eq_true, Bool.and_eq_true] at hnm
          have hm := hnm.1
          have hcs := hnm.2.1
          have hrest := hnm.2.2
          have hm' : m ≠ "" := by simpa using hm
          simp only [List.cons.sizeOf_spec, Entry.dir.sizeOf_spec] at hsz
          rcases List.mem_append.mp hr with hr1 | hr2
          rcases List.mem_append.mp hr1 with hfz | hwz
          · obtain ⟨h1, h2⟩ := filesHere_spec _ _ cs r hfz
            refine ⟨by rw [h1]; exact joinRel_ne_empty hm', ?_⟩
            rw [h2, h1]
          · exact ih cs (by omega) root (joinRel rel m) r hwz hcs
          · exact ih rest (by omega) root rel r hr2 hrest

/-- C10: every record produced by `scan`, in both modes, is internally
consistent: `full_path` is the root joined with `relative_path` (when
nonempty) joined with `filename`, and `relative_path` is empty exactly for
the records of files lying directly in the root listing (`filesHere root ""
es`), provided the tree's entry names are nonempty as on a real
filesystem. -/
theorem scan_records_consistent (root : String) (es : List Entry) (recursive : Bool)
    (hnames : namesNonempty es = true) :
    ∀ r ∈ (scan root (FS.tree es) recursive).1,
      (r.full_path = if r.relative_path = "" then pjoin root r.filename
        else pjoin (pjoin root r.relative_path) r.filename) ∧
      (r.relative_path = "" ↔ r ∈ filesHere root "" es) := by
  intro r hr
  cases recursive with
  | false =>
      have hr' : r ∈ filesHere root "" es := hr
      obtain ⟨h1, h2⟩ := filesHere_spec root "" es r hr'
      simp [h1, h2, hr']
  | true =>
      have hr' : r ∈ filesHere root "" es ++ walkSubdirs root "" es := hr
      rcases List.mem_append.mp hr' with hf | hw
      · obtain ⟨h1, h2⟩ := filesHere_spec root "" es r hf
        simp [h1, h2, hf]
      · obtain ⟨h1, h2⟩ := walkSubdirs_spec (sizeOf es) es (Nat.le_refl _)
          root "" r hw hnames
        rw [if_neg h1]
        refine ⟨?_, ?_⟩
        · rw [h2]
          unfold dirpathOf
          rw [if_neg h1]
        · constructor
          · intro hc
            exact absurd hc h1
          · intro hf
            exact absurd (filesHere_spec root "" es r hf).1 h1

/-- C10 witness: a concrete tree with a root file and a subdirectory file. -/
theorem scan_records_consistent_witness :
    (⟨"b.jpg", "sub", "r/sub/b.jpg"⟩ : ImageRecord).full_path =
      pjoin (pjoin "r" "sub") "b.jpg" ∧
    ¬((⟨"b.jpg", "sub", "r/sub/b.jpg"⟩ : ImageRecord) ∈
      filesHere "r" "" [Entry.file "a.png", Entry.dir "sub" [Entry.file "b.jpg"]]) := by
  have h := scan_records_consistent "r"
    [Entry.file "a.png", Entry.dir "sub" [Entry.file "b.jpg"]] true
    (by simp [namesNonempty])
    ⟨"b.jpg", "sub", "r/sub/b.jpg"⟩
    (by simp [scan, _scan_recursive, filesHere, walkSubdirs, _is_valid_image,
      VALID_EXTENSIONS, joinRel, dirpathOf, pjoin, strEndsWith, lowerStr])
  refine ⟨?_, ?_⟩
  · have h1 := h.1
    simpa using h1
  · intro hmem
    have h2 := (h.2).mpr hmem
    simp at h2

end RecursiveScanner

/-- The comparison `load_images_start` sorts by:
`key=lambda x: x["full_path"]`, i.e. the lexicographic string order on
`full_path` (Python compares `str` by code points, as Lean's `String` order
does). -/
def recLE (a b : ImageRecord) : Prop := a.full_path ≤ b.full_path

/-- Strict version of `recLE`, used to exploit distinctness of paths. -/
def recLT (a b : ImageRecord) : Prop := a.full_path < b.full_path

instance : DecidableRel recLE := fun a b =>
  inferInstanceAs (Decidable (a.full_path ≤ b.full_path))

instance : IsTotal ImageRecord recLE := ⟨fun a b => le_total a.full_path b.full_path⟩

instance : IsTrans ImageRecord recLE := ⟨fun _ _ _ h1 h2 => le_trans h1 h2⟩

instance : IsAntisymm ImageRecord recLT :=
  ⟨fun _ _ h1 h2 => absurd (lt_trans h1 h2) (lt_irrefl _)⟩

namespace RapidCullerApp

/-- The sort `self.image_files.sort(key=lambda x: x["full_path"])` performed
by `load_images_start` (a stable comparison sort, modelled by insertion
sort). -/
def sortImages (l : List ImageRecord) : List ImageRecord := l.insertionSort recLE

/-- The scan-then-sort portion of `RapidCullerApp.load_images_start`: the
ordered record list the session controller works on. -/
def load_images_start (root : String) (fs : FS) (recursive : Bool) :
    List ImageRecord :=
  sortImages (RecursiveScanner.scan root fs recursive).1

theorem sorted_strict_of_nodup {l : List ImageRecord}
    (hs : List.Sorted recLE l) (hnd : (l.map ImageRecord.full_path).Nodup) :
    List.Sorted recLT l := by
  have hne : l.Pairwise (fun a b => a.full_path ≠ b.full_path) :=
    List.pairwise_map.mp hnd
  exact (hs.and hne).imp (fun h => lt_of_le_of_ne h.1 h.2)

theorem sortImages_eq_of_perm {l₁ l₂ : List ImageRecord} (h : l₁.Perm l₂)
    (hnd : (l₁.map ImageRecord.full_path).Nodup) :
    sortImages l₁ = sortImages l₂ := by
  have p1 : (sortImages l₁).Perm l₁ := List.perm_insertionSort recLE l₁
  have p2 : (sortImages l₂).Perm l₂ := List.perm_insertionSort recLE l₂
  have p : (sortImages l₁).Perm (sortImages l₂) := (p1.trans h).trans p2.symm
  have nd1 : ((sortImages l₁).map ImageRecord.full_path).Nodup :=
    ((p1.map ImageRecord.full_path).nodup_iff).mpr hnd
  have nd2 : ((sortImages l₂).map ImageRecord.full_path).Nodup :=
    ((p.map ImageRecord.full_path).nodup_iff).mp nd1
  exact List.eq_of_perm_of_sorted p
    (sorted_strict_of_nodup (List.sorted_insertionSort recLE l₁) nd1)
    (sorted_strict_of_nodup (List.sorted_insertionSort recLE l₂) nd2)

end RapidCullerApp

namespace RecursiveScanner

/-- The name of a directory entry. -/
def entryName : Entry → String
  | .file n => n
  | .dir n _ => n
  | .link n => n

/-- Lexicographic code-point comparison of character lists (an executable
total order on names, used only to pick canonical listing orders). -/
def charListLE : List Char → List Char → Bool
  | [], _ => true
  | _ :: _, [] => false
  | a :: as, b :: bs =>
      if a.toNat < b.toNat then true
      else if b.toNat < a.toNat then false
      else charListLE as bs

/-- Name order on entries, used only to fix one canonical enumeration order
per directory when expressing that two trees are the same up to the order
the OS happens to list entries in. -/
def entryLE (a b : Entry) : Prop :=
  charListLE (entryName a).data (entryName b).data = true

instance : DecidableRel entryLE := fun a b =>
  inferInstanceAs (Decidable (charListLE (entryName a).data (entryName b).data = true))

/-- Sort one directory listing into the canonical (name-ascending) order. -/
def sortEntries (es : List Entry) : List Entry := es.insertionSort entryLE

/-- Canonical form of an entry: directory listings are recursively brought
into the canonical order.  Two `Entry` trees with equal canonical forms
describe the same on-disk tree enumerated in possibly different orders. -/
def canonEntry : Entry → Entry
  | .file n => .file n
  | .link n => .link n
  | .dir n cs => .dir n (sortEntries (cs.attach.map (fun x => canonEntry x.1)))
  termination_by e => sizeOf e
  decreasing_by
    have := List.sizeOf_lt_of_mem x.2
    simp_wf
    omega

/-- Canonical form of a directory listing. -/
def canonF (es : List Entry) : List Entry := sortEntries (es.map canonEntry)

theorem canonEntry_dir (n : String) (cs : List Entry) :
    canonEntry (.dir n cs) = .dir n (canonF cs) := by
  rw [canonEntry, canonF, List.attach_map_coe]

theorem filesHere_eq_filterMap (d rel : String) (es : List Entry) :
    filesHere d rel es = es.filterMap (fun e =>
      match e with
      | .file n => if _is_valid_image n then some ⟨n, rel, pjoin d n⟩ else none
      | _ => none) := by
  induction es with
  | nil => simp [filesHere]
  | cons e rest ih =>
      cases e with
      | file n =>
          by_cases h : _is_valid_image n <;>
            simp [filesHere, List.filterMap_cons, h, ih]
      | dir n cs => simp [filesHere, List.filterMap_cons, ih]
      | link n => simp [filesHere, List.filterMap_cons, ih]

theorem filesHere_perm {es₁ es₂ : List Entry} (h : es₁.Perm es₂) (d rel : String) :
    (filesHere d rel es₁).Perm (filesHere d rel es₂) := by
  rw [filesHere_eq_filterMap, filesHere_eq_filterMap]
  exact h.filterMap _

theorem filesHere_map_canon (d rel : String) (es : List Entry) :
    filesHere d rel (es.map canonEntry) = filesHere d rel es := by
  induction es with
  | nil => rfl
  | cons e rest ih =>
      cases e with
      | file n => simp only [List.map_cons, canonEntry, filesHere, ih]
      | dir n cs => simp only [List.map_cons, canonEntry_dir, filesHere, ih]
      | link n => simp only [List.map_cons, canonEntry, filesHere, ih]

/-- The records one entry contributes to `walkSubdirs`: a directory's own
files followed by its recursive walk; files and pruned symlinks contribute
nothing. -/
def dirContrib (root rel : String) : Entry → List ImageRecord
  | .dir n cs =>
      filesHere (dirpathOf root (joinRel rel n)) (joinRel rel n) cs ++
      walkSubdirs root (joinRel rel n) cs
  | .file _ => []
  | .link _ => []

theorem walkSubdirs_cons (root rel : String) (e : Entry) (rest : List Entry) :
    walkSubdirs root rel (e :: rest) =
      dirContrib root rel e ++ walkSubdirs root rel rest := by
  cases e <;> simp [walkSubdirs, dirContrib]

theorem walkSubdirs_perm {es₁ es₂ : List Entry} (h : es₁.Perm es₂)
    (root rel : String) :
    (walkSubdirs root rel es₁).Perm (walkSubdirs root rel es₂) := by
  induction h with
  | nil => exact List.Perm.refl _
  | cons x _ ih =>
      rw [walkSubdirs_cons, walkSubdirs_cons]
      exact (ih).append_left _
  | swap x y l =>
      rw [walkSubdirs_cons, walkSubdirs_cons, walkSubdirs_cons, walkSubdirs_cons]
      exact List.perm_append_comm_assoc _ _ _
  | trans _ _ ih1 ih2 => exact ih1.trans ih2

theorem walkSubdirs_map_canon_perm (N : Nat) :
    ∀ es, sizeOf es ≤ N → ∀ root rel,
      (walkSubdirs root rel (es.map canonEntry)).Perm (walkSubdirs root rel es) := by
  induction N with
  | zero =>
      intro es h
      exact absurd h (by cases es <;> simp)
  | succ N ih =>
      intro es hsz root rel
      match es with
      | [] => exact List.Perm.refl _
      | e :: rest =>
          rw [List.map_cons, walkSubdirs_cons, walkSubdirs_cons]
          simp only [List.cons.sizeOf_spec] at hsz
          refine List.Perm.append ?_ (ih rest (by omega) root rel)
          cases e with
          | file n =>
              simp only [canonEntry]
              exact List.Perm.refl _
          | link n =>
              simp only [canonEntry]
              exact List.Perm.refl _
          | dir n cs =>
              rw [canonEntry_dir]
              simp only [Entry.dir.sizeOf_spec] at hsz
              simp only [dirContrib, canonF, sortEntries]
              have h1 := filesHere_perm
                (List.perm_insertionSort entryLE (cs.map canonEntry))
                (dirpathOf root (joinRel rel n)) (joinRel rel n)
              rw [filesHere_map_canon] at h1
              have h2 := walkSubdirs_perm
                (List.perm_insertionSort entryLE (cs.map canonEntry)) root (joinRel rel n)
              have h3 := ih cs (by omega) root (joinRel rel n)
              exact List.Perm.append h1 (h2.trans h3)

theorem scan_perm_canon (root : String) (es : List Entry) (recursive : Bool) :
    ((scan root (FS.tree (canonF es)) recursive).1).Perm
      ((scan root (FS.tree es) recursive).1) := by
  have hf : (filesHere root "" (canonF es)).Perm (filesHere root "" es) := by
    have h1 := filesHere_perm (List.perm_insertionSort entryLE (es.map canonEntry)) root ""
    rw [filesHere_map_canon] at h1
    exact h1
  have hw : (walkSubdirs root "" (canonF es)).Perm (walkSubdirs root "" es) := by
    have h2 := walkSubdirs_perm (List.perm_insertionSort entryLE (es.map canonEntry)) root ""
    exact h2.trans (walkSubdirs_map_canon_perm (sizeOf es) es (Nat.le_refl _) root "")
  cases recursive with
  | false => exact hf
  | true => exact List.Perm.append hf hw

end RecursiveScanner

namespace RapidCullerApp

/-- C2: the record list `load_images_start` hands to the session is sorted
ascending by `full_path`; and scanning the same directory tree (equal up to
per-directory enumeration order, i.e. with equal canonical forms) yields the
same sorted list, provided the scanned full paths are distinct, as they are
on a real filesystem. -/
theorem load_images_sorted_deterministic :
    (∀ (root : String) (fs : FS) (recursive : Bool),
      List.Sorted recLE (load_images_start root fs recursive)) ∧
    (∀ (root : String) (es₁ es₂ : List Entry) (recursive : Bool),
      RecursiveScanner.canonF es₁ = RecursiveScanner.canonF es₂ →
      ((RecursiveScanner.scan root (FS.tree es₁) recursive).1.map
        ImageRecord.full_path).Nodup →
      load_images_start root (FS.tree es₁) recursive =
        load_images_start root (FS.tree es₂) recursive) := by
  constructor
  · intro root fs recursive
    exact List.sorted_insertionSort recLE _
  · intro root es₁ es₂ recursive hcanon hnd
    have p1 := (RecursiveScanner.scan_perm_canon root es₁ recursive).symm
    have p2 := RecursiveScanner.scan_perm_canon root es₂ recursive
    rw [hcanon] at p1
    exact sortImages_eq_of_perm (p1.trans p2) hnd

/-- C2 witness: the same tree listed in two different orders produces the
same sorted session list. -/
theorem load_images_sorted_deterministic_witness :
    load_images_start "r"
      (FS.tree [Entry.dir "sub" [Entry.file "b.jpg", Entry.file "a.png"],
                Entry.file "c.png"]) true =
    load_images_start "r"
      (FS.tree [Entry.file "c.png",
                Entry.dir "sub" [Entry.file "a.png", Entry.file "b.jpg"]]) true :=
  load_images_sorted_deterministic.2 "r"
    [Entry.dir "sub" [Entry.file "b.jpg", Entry.file "a.png"], Entry.file "c.png"]
    [Entry.file "c.png", Entry.dir "sub" [Entry.file "a.png", Entry.file "b.jpg"]]
    true
    (by simp [RecursiveScanner.canonF, RecursiveScanner.canonEntry_dir,
      RecursiveScanner.canonEntry, RecursiveScanner.sortEntries,
      RecursiveScanner.entryLE, RecursiveScanner.entryName,
      RecursiveScanner.charListLE])
    (by simp [RecursiveScanner.scan, RecursiveScanner._scan_recursive,
      RecursiveScanner.filesHere, RecursiveScanner.walkSubdirs,
      RecursiveScanner._is_valid_image, RecursiveScanner.VALID_EXTENSIONS,
      RecursiveScanner.joinRel, RecursiveScanner.dirpathOf, pjoin,
      RecursiveScanner.strEndsWith, RecursiveScanner.lowerStr])

end RapidCullerApp

/-- Models `os.path.splitext` for a bare filename (no separators): splits at
the last dot, unless every character before it is a dot (leading dots do not
start an extension). -/
def lastDotIdx : List Char → Option Nat
  | [] => none
  | c :: rest =>
      match lastDotIdx rest with
      | some i => some (i + 1)
      | none => if c = '.' then some 0 else none

/-- `base, ext = os.path.splitext(filename)`. -/
def splitext (p : String) : String × String :=
  match lastDotIdx p.data with
  | none => (p, "")
  | some i =>
      if (p.data.take i).any (fun c => c ≠ '.') then
        (⟨p.data.take i⟩, ⟨p.data.drop i⟩)
      else (p, "")

namespace RapidCullerApp

/-- The `while os.path.exists(dst_path)` collision loop of
`move_and_advance`, with the current candidate `dst` and `counter` as loop
state.  `occupied` is the `os.path.exists` oracle; `fuel` bounds the number
of iterations (the Python loop runs unboundedly; every claim about it
presupposes a free name is eventually found, which the hypotheses of the
theorems below express). -/
def resolveDstLoop (occupied : String → Bool) (finalDest base ext : String) :
    Nat → Nat → String → String
  | 0, _, dst => dst
  | fuel + 1, counter, dst =>
      if occupied dst then
        resolveDstLoop occupied finalDest base ext fuel (counter + 1)
          (pjoin finalDest (base ++ "_" ++ toString counter ++ ext))
      else dst

/-- Destination-path resolution of `move_and_advance`: start from
`final_dest/filename` and append `_1`, `_2`, … before the extension until a
free name is found. -/
def resolveDst (occupied : String → Bool) (finalDest filename : String)
    (fuel : Nat) : String :=
  resolveDstLoop occupied finalDest (splitext filename).1 (splitext filename).2
    fuel 1 (pjoin finalDest filename)

/-- The `k`-th candidate destination the loop tries: the plain filename
first, then `base_k` with the extension re-attached. -/
def candDst (finalDest filename : String) : Nat → String
  | 0 => pjoin finalDest filename
  | k + 1 =>
      pjoin finalDest
        ((splitext filename).1 ++ "_" ++ toString (k + 1) ++ (splitext filename).2)

theorem resolveDstLoop_reaches (occupied : String → Bool)
    (finalDest filename : String) :
    ∀ (fuel c k : Nat), 1 ≤ c → c - 1 ≤ k →
      (∀ j, c - 1 ≤ j → j < k → occupied (candDst finalDest filename j) = true) →
      occupied (candDst finalDest filename k) = false →
      k - (c - 1) < fuel →
      resolveDstLoop occupied finalDest (splitext filename).1
        (splitext filename).2 fuel c (candDst finalDest filename (c - 1)) =
      candDst finalDest filename k := by
  intro fuel
  induction fuel with
  | zero =>
      intro c k _ _ _ _ hlt
      omega
  | succ fuel ih =>
      intro c k hc hck hocc hfree hlt
      rw [resolveDstLoop]
      by_cases hend : c - 1 = k
      · rw [hend, hfree]
        simp
      · have hck' : c - 1 < k := by omega
        rw [hocc (c - 1) (Nat.le_refl _) hck']
        have hcand : pjoin finalDest
            ((splitext filename).1 ++ "_" ++ toString c ++ (splitext filename).2) =
            candDst finalDest filename c := by
          obtain ⟨c2, rfl⟩ : ∃ c2, c = c2 + 1 := ⟨c - 1, by omega⟩
          rfl
        rw [hcand]
        have := ih (c + 1) k (by omega) (by omega)
          (by intro j h1 h2; exact hocc j (by omega) h2) hfree (by omega)
        simpa using this

/-- C4: when the computed destination `final_dest/filename` already exists,
`move_and_advance`'s collision loop tries `base_1ext`, `base_2ext`, …
(`base, ext = splitext(filename)`) in order and resolves to the first free
candidate, never an occupied path.  `k` is the index of the first free
candidate and `fuel` any bound beyond it. -/
theorem move_never_overwrites (occupied : String → Bool)
    (finalDest filename : String) (fuel k : Nat)
    (hcol : occupied (pjoin finalDest filename) = true)
    (hk : 1 ≤ k)
    (hbusy : ∀ j, 1 ≤ j → j < k →
      occupied (pjoin finalDest
        ((splitext filename).1 ++ "_" ++ toString j ++ (splitext filename).2)) = true)
    (hfree : occupied (pjoin finalDest
      ((splitext filename).1 ++ "_" ++ toString k ++ (splitext filename).2)) = false)
    (hfuel : k < fuel) :
    resolveDst occupied finalDest filename fuel =
      pjoin finalDest
        ((splitext filename).1 ++ "_" ++ toString k ++ (splitext filename).2) ∧
    occupied (resolveDst occupied finalDest filename fuel) = false := by
  have hcand : ∀ j, 1 ≤ j → candDst finalDest filename j =
      pjoin finalDest
        ((splitext filename).1 ++ "_" ++ toString j ++ (splitext filename).2) := by
    intro j hj
    obtain ⟨j2, rfl⟩ : ∃ j2, j = j2 + 1 := ⟨j - 1, by omega⟩
    rfl
  have hocc' : ∀ j, 1 - 1 ≤ j → j < k →
      occupied (candDst finalDest filename j) = true := by
    intro j _ h2
    cases j with
    | zero => exact hcol
    | succ j2 =>
        rw [hcand _ (by omega)]
        exact hbusy _ (by omega) h2
  have hfree' : occupied (candDst finalDest filename k) = false := by
    rw [hcand _ hk]
    exact hfree
  have h := resolveDstLoop_reaches occupied finalDest filename fuel 1 k
    (Nat.le_refl 1) (by omega) hocc' hfree' (by omega)
  have hres : resolveDst occupied finalDest filename fuel =
      candDst finalDest filename k := h
  refine ⟨?_, ?_⟩
  · rw [hres, hcand _ hk]
  · rw [hres, hfree']

/-- C4 witness: with `d/a.png` and `d/a_1.png` occupied, the move resolves
to `d/a_2.png`, which is free. -/
theorem move_never_overwrites_witness :
    resolveDst (fun s => s == "d/a.png" || s == "d/a_1.png") "d" "a.png" 3 =
      pjoin "d" ((splitext "a.png").1 ++ "_" ++ toString 2 ++ (splitext "a.png").2) ∧
    (fun s => s == "d/a.png" || s == "d/a_1.png")
      (resolveDst (fun s => s == "d/a.png" || s == "d/a_1.png") "d" "a.png" 3) =
      false :=
  move_never_overwrites (fun s => s == "d/a.png" || s == "d/a_1.png")
    "d" "a.png" 3 2 (by decide) (by decide)
    (fun j h1 h2 => by
      have hj : j = 1 := by omega
      subst hj
      decide)
    (by decide) (by decide)

end RapidCullerApp

/-- A filesystem side effect performed by `move_and_advance`: creating the
destination subdirectory (`os.makedirs(..., exist_ok=True)`) or moving the
file (`shutil.move(src, dst)`). -/
inductive FSEffect where
  | makedirs (path : String)
  | move (src dst : String)
deriving DecidableEq

/-- The session-controller state the claims concern: the scanned records and
the current index. -/
structure AppState where
  image_files : List ImageRecord
  current_index : Nat
deriving DecidableEq

/-- Environment of one `move_and_advance` call: the `os.path.exists` oracle
for the destination, the bound for the collision loop, and whether
`os.makedirs`/`shutil.move` raises `(OSError, PermissionError)` (caught at
source line 856). -/
structure MoveEnv where
  occupied : String → Bool
  fuel : Nat
  moveFails : Bool

namespace RapidCullerApp

/-- `RapidCullerApp.move_and_advance`: guarded by the index bound; builds
the destination directory (creating the `relative_path` subdirectory when
nonempty), resolves collisions, then moves.  On failure the error dialog is
shown (third component `true`) and the state is unchanged; on success the
index advances by one.  Returns (new state, filesystem effects, error
reported). -/
def move_and_advance (st : AppState) (destination : String) (env : MoveEnv) :
    AppState × List FSEffect × Bool :=
  if h : st.current_index < st.image_files.length then
    let info := st.image_files.get ⟨st.current_index, h⟩
    let fdm : String × List FSEffect :=
      if info.relative_path ≠ "" then
        (pjoin destination info.relative_path,
         [FSEffect.makedirs (pjoin destination info.relative_path)])
      else (destination, [])
    let dst := resolveDst env.occupied fdm.1 info.filename env.fuel
    if env.moveFails then (st, fdm.2, true)
    else ({ st with current_index := st.current_index + 1 },
          fdm.2 ++ [FSEffect.move info.full_path dst], false)
  else (st, [], false)

/-- The `Finished` condition of the session state machine:
`show_current_image` calls `finish_culling` exactly when the index is no
longer below the record count. -/
def isFinished (st : AppState) : Prop :=
  st.image_files.length ≤ st.current_index

/-- `RapidCullerApp.action_keep`: move the current image to the keep
directory (guarded by a nonempty file list). -/
def action_keep (st : AppState) (keep_dir : String) (env : MoveEnv) :
    AppState × List FSEffect × Bool :=
  if st.image_files.isEmpty then (st, [], false)
  else move_and_advance st keep_dir env

/-- `RapidCullerApp.action_reject`: move the current image to the reject
directory (guarded by a nonempty file list). -/
def action_reject (st : AppState) (reject_dir : String) (env : MoveEnv) :
    AppState × List FSEffect × Bool :=
  if st.image_files.isEmpty then (st, [], false)
  else move_and_advance st reject_dir env

/-- `RapidCullerApp.action_next`: advance without touching any file, only
when not already at the last index. -/
def action_next (st : AppState) : AppState × List FSEffect :=
  if ¬st.image_files.isEmpty ∧ st.current_index < st.image_files.length - 1 then
    ({ st with current_index := st.current_index + 1 }, [])
  else (st, [])

/-- `RapidCullerApp.action_previous`: go back without touching any file,
only when not at index 0. -/
def action_previous (st : AppState) : AppState × List FSEffect :=
  if ¬st.image_files.isEmpty ∧ 0 < st.current_index then
    ({ st with current_index := st.current_index - 1 }, [])
  else (st, [])

/-- `RapidCullerApp.action_skip`: identical to `action_next` for now. -/
def action_skip (st : AppState) : AppState × List FSEffect :=
  action_next st

end RapidCullerApp

namespace RapidCullerApp

/-- C5: while browsing (`current_index < N`), a keep/reject action advances
the index by exactly one if and only if the file move succeeds: on failure
the error is reported and the state (and hence the active record) is
unchanged; on success the index advances, the record list is untouched, and
reaching `N` means the session is Finished.  `action_keep`/`action_reject`
delegate to `move_and_advance` whenever any records exist. -/
theorem keep_reject_advances_iff_move_succeeds (st : AppState)
    (destination : String) (env : MoveEnv)
    (h : st.current_index < st.image_files.length) :
    (st.image_files.isEmpty = false →
      action_keep st destination env = move_and_advance st destination env ∧
      action_reject st destination env = move_and_advance st destination env) ∧
    (env.moveFails = true →
      (move_and_advance st destination env).1 = st ∧
      (move_and_advance st destination env).2.2 = true) ∧
    (env.moveFails = false →
      (move_and_advance st destination env).1.current_index = st.current_index + 1 ∧
      (move_and_advance st destination env).1.image_files = st.image_files ∧
      (move_and_advance st destination env).2.2 = false ∧
      (st.current_index + 1 = st.image_files.length →
        isFinished (move_and_advance st destination env).1)) := by
  refine ⟨?_, ?_, ?_⟩
  · intro he
    rw [action_keep, action_reject, he]
    simp
  · intro hm
    simp [move_and_advance, h, hm]
  · intro hm
    have hidx : (move_and_advance st destination env).1.current_index =
        st.current_index + 1 := by
      simp [move_and_advance, h, hm]
    have hfiles : (move_and_advance st destination env).1.image_files =
        st.image_files := by
      simp [move_and_advance, h, hm]
    refine ⟨hidx, hfiles, by simp [move_and_advance, h, hm], ?_⟩
    intro heq
    rw [isFinished, hidx, hfiles, heq]

/-- C5 witness: a one-image session with a succeeding move advances from 0
to 1 and is Finished. -/
theorem keep_reject_advances_witness :
    (move_and_advance ⟨[⟨"a.png", "", "s/a.png"⟩], 0⟩ "k"
      ⟨fun _ => false, 1, false⟩).1.current_index = 0 + 1 ∧
    isFinished (move_and_advance ⟨[⟨"a.png", "", "s/a.png"⟩], 0⟩ "k"
      ⟨fun _ => false, 1, false⟩).1 := by
  have h := (keep_reject_advances_iff_move_succeeds
    ⟨[⟨"a.png", "", "s/a.png"⟩], 0⟩ "k" ⟨fun _ => false, 1, false⟩
    (by decide)).2.2 rfl
  exact ⟨h.1, h.2.2.2 rfl⟩

theorem resolveDst_no_collision (occ : String → Bool) (fd fn : String)
    (fuel : Nat) (hfuel : 1 ≤ fuel) (hfree : occ (pjoin fd fn) = false) :
    resolveDst occ fd fn fuel = pjoin fd fn := by
  obtain ⟨f2, rfl⟩ : ∃ f2, fuel = f2 + 1 := ⟨fuel - 1, by omega⟩
  rw [resolveDst, resolveDstLoop, hfree]
  simp

/-- C8: a successful keep/reject move sends the current record's file to
`destination/relative_path/filename` when `relative_path` is nonempty
(issuing `makedirs destination/relative_path` first), and directly to
`destination/filename` when it is empty, absent a name collision at that
target. -/
theorem move_preserves_structure (st : AppState) (destination : String)
    (env : MoveEnv) (r : ImageRecord)
    (h : st.current_index < st.image_files.length)
    (hr : st.image_files.get ⟨st.current_index, h⟩ = r)
    (hmf : env.moveFails = false) (hfuel : 1 ≤ env.fuel)
    (hfree : env.occupied (pjoin (if r.relative_path = "" then destination
        else pjoin destination r.relative_path) r.filename) = false) :
    (move_and_advance st destination env).2.1 =
      (if r.relative_path = "" then []
       else [FSEffect.makedirs (pjoin destination r.relative_path)]) ++
      [FSEffect.move r.full_path
        (pjoin (if r.relative_path = "" then destination
          else pjoin destination r.relative_path) r.filename)] := by
  have hr2 : st.image_files[st.current_index] = r := hr
  by_cases hrel : r.relative_path = ""
  · have hres := resolveDst_no_collision env.occupied destination r.filename
      env.fuel hfuel (by simpa [hrel] using hfree)
    simp [move_and_advance, h, hr2, hmf, hrel, hres]
  · have hres := resolveDst_no_collision env.occupied
      (pjoin destination r.relative_path) r.filename
      env.fuel hfuel (by simpa [hrel] using hfree)
    simp [move_and_advance, h, hr2, hmf, hrel, hres]

/-- C8 witness: a record in subdirectory `sub` moved to destination `k`
creates `k/sub` and lands at `k/sub/b.jpg`. -/
theorem move_preserves_structure_witness :
    (move_and_advance ⟨[⟨"b.jpg", "sub", "s/sub/b.jpg"⟩], 0⟩ "k"
      ⟨fun _ => false, 1, false⟩).2.1 =
      [FSEffect.makedirs (pjoin "k" "sub"),
       FSEffect.move "s/sub/b.jpg" (pjoin (pjoin "k" "sub") "b.jpg")] := by
  have h := move_preserves_structure ⟨[⟨"b.jpg", "sub", "s/sub/b.jpg"⟩], 0⟩ "k"
    ⟨fun _ => false, 1, false⟩ ⟨"b.jpg", "sub", "s/sub/b.jpg"⟩
    (by decide) rfl rfl (by decide) (by decide)
  simpa using h

/-- C9: navigation stays in bounds and touches no file: `previous` at index
0 and `next`/`skip` at the last index are no-ops, navigation emits no
filesystem effect, and from any in-bounds index both actions stay in
`[0, N)`. -/
theorem navigation_bounds (st : AppState) (_hne : st.image_files ≠ []) :
    (st.current_index = 0 → action_previous st = (st, [])) ∧
    (st.current_index = st.image_files.length - 1 →
      action_next st = (st, []) ∧ action_skip st = (st, [])) ∧
    (action_next st).2 = [] ∧ (action_previous st).2 = [] ∧
    action_skip st = action_next st ∧
    (st.current_index < st.image_files.length →
      (action_next st).1.current_index < st.image_files.length ∧
      (action_previous st).1.current_index < st.image_files.length) := by
  refine ⟨?_, ?_, ?_, ?_, rfl, ?_⟩
  · intro h0
    simp [action_previous, h0]
  · intro hlast
    have : ¬(st.current_index < st.image_files.length - 1) := by omega
    constructor <;> simp [action_next, action_skip, this]
  · rw [action_next]
    split <;> rfl
  · rw [action_previous]
    split <;> rfl
  · intro hin
    constructor
    · rw [action_next]
      split
      · rename_i hcond
        simp only []
        omega
      · exact hin
    · rw [action_previous]
      split
      · rename_i hcond
        simp only []
        omega
      · exact hin

/-- C9 witness: a two-image session at index 0: `previous` is a no-op and
`next` stays in bounds. -/
theorem navigation_bounds_witness :
    action_previous ⟨[⟨"a.png", "", "s/a.png"⟩, ⟨"b.png", "", "s/b.png"⟩], 0⟩ =
      (⟨[⟨"a.png", "", "s/a.png"⟩, ⟨"b.png", "", "s/b.png"⟩], 0⟩, []) ∧
    (action_next ⟨[⟨"a.png", "", "s/a.png"⟩, ⟨"b.png", "", "s/b.png"⟩],
      0⟩).1.current_index < 2 := by
  have h := navigation_bounds
    ⟨[⟨"a.png", "", "s/a.png"⟩, ⟨"b.png", "", "s/b.png"⟩], 0⟩ (by decide)
  exact ⟨h.1 rfl, (h.2.2.2.2.2 (by decide)).1⟩

end RapidCullerApp
